import Mathlib

/-!
# Verification of the l20n recursive-descent parser (`src/l20n/parse.rs`)

A shallow embedding of the parser in `src/l20n/parse.rs`: the character
cursor (`Parser`), the whitespace scanners, the identifier scanner, the
pattern scanner and the top-level `parse` loop, together with theorems
settling the specification claims about them.

The AST node types (`Identifier`, `Entry`, `Value`, `PatternElement`,
`Comment`) live in `src/l20n/ast.rs`, which is not part of the provided
sources; they are modelled from the spec (§3) and from how `parse.rs`
constructs them.
-/

namespace L20n

/-- Modelled from the spec: `src/l20n/ast.rs` is absent from the sources.
Spec §3: "Identifier: a name string". -/
structure Identifier where
  name : String
deriving DecidableEq, Repr

/-- Modelled from the spec: `src/l20n/ast.rs` is absent from the sources.
The spec only mentions an optional comment attached to an entity; the
parser never constructs one. -/
structure Comment where
  content : String
deriving DecidableEq, Repr

/-- Modelled from the spec: `src/l20n/ast.rs` is absent from the sources.
Spec §3: "PatternElement (variant TextElement): { value: string }". -/
inductive PatternElement where
  | TextElement (value : String)
deriving DecidableEq, Repr

/-- Modelled from the spec: `src/l20n/ast.rs` is absent from the sources.
Spec §3: "Value (variant Pattern): { source, elements }". -/
inductive Value where
  | Pattern (source : String) (elements : List PatternElement)
deriving DecidableEq, Repr

/-- Modelled from the spec: `src/l20n/ast.rs` is absent from the sources.
Spec §3: "Entry (variant Entity): { id, comment, value }". -/
inductive Entry where
  | Entity (id : Identifier) (comment : Option Comment) (value : Value)
deriving DecidableEq, Repr

/-- `ParseError` from `parse.rs`: a single human-readable message. -/
structure ParseError where
  error_message : String
deriving DecidableEq, Repr

/-- The cursor state of `Parser<'a>` in `parse.rs`: `source` is the part of
the input the `Chars` iterator has not yet yielded, `ch` the current
character (`None` both before the first `bump` and at end-of-input), and
`pos` the `u16` position counter (kept as a `Nat` reduced mod `2^16`). -/
structure Parser where
  source : List Char
  ch : Option Char
  pos : Nat
deriving DecidableEq, Repr

namespace Parser

/-- `Parser::new`. -/
def new (s : List Char) : Parser :=
  { source := s, ch := none, pos := 0 }

/-- `Parser::bump`: `self.ch = self.source.next(); self.pos += 1`.
The `u16` increment wraps modulo `2^16` (release-mode Rust semantics). -/
def bump (p : Parser) : Parser :=
  match p.source with
  | [] => { source := [], ch := none, pos := (p.pos + 1) % 65536 }
  | c :: rest => { source := rest, ch := some c, pos := (p.pos + 1) % 65536 }

/-- Termination measure: remaining characters, counting the current one. -/
def meas (p : Parser) : Nat :=
  p.source.length + (if p.ch.isSome then 1 else 0)

theorem bump_meas_le (p : Parser) : (bump p).meas ≤ p.meas := by
  cases hs : p.source
  · cases hc : p.ch <;> simp [bump, meas, hs, hc]
  · cases hc : p.ch <;> simp [bump, meas, hs, hc]

theorem bump_meas_lt (p : Parser) (h : p.ch.isSome) : (bump p).meas < p.meas := by
  cases hc : p.ch
  · simp [hc] at h
  · cases hs : p.source <;> simp [bump, meas, hs, hc]

/-- `Parser::get_ws`: skip runs of space, newline, tab, carriage return. -/
def get_ws (p : Parser) : Parser :=
  if p.ch = some ' ' ∨ p.ch = some '\n' ∨ p.ch = some '\t' ∨ p.ch = some '\r' then
    get_ws (bump p)
  else
    p
termination_by p.meas
decreasing_by
  exact bump_meas_lt p (by rcases ‹_ ∨ _ ∨ _ ∨ _› with h | h | h | h <;> simp [h])

/-- `Parser::get_line_ws`: skip runs of space and tab only. -/
def get_line_ws (p : Parser) : Parser :=
  if p.ch = some ' ' ∨ p.ch = some '\t' then
    get_line_ws (bump p)
  else
    p
termination_by p.meas
decreasing_by
  exact bump_meas_lt p (by rcases ‹_ ∨ _› with h | h <;> simp [h])

theorem get_ws_meas_le (p : Parser) : (get_ws p).meas ≤ p.meas := by
  rw [get_ws]
  split
  · exact le_trans (get_ws_meas_le (bump p)) (bump_meas_le p)
  · exact le_refl _
termination_by p.meas
decreasing_by
  exact bump_meas_lt p (by rcases ‹_ ∨ _ ∨ _ ∨ _› with h | h | h | h <;> simp [h])

theorem get_line_ws_meas_le (p : Parser) : (get_line_ws p).meas ≤ p.meas := by
  rw [get_line_ws]
  split
  · exact le_trans (get_line_ws_meas_le (bump p)) (bump_meas_le p)
  · exact le_refl _
termination_by p.meas
decreasing_by
  exact bump_meas_lt p (by rcases ‹_ ∨ _› with h | h <;> simp [h])

end Parser

/-- A cursor whose current character and remaining characters are drawn from
one list: `mkCursor cs pos` is the cursor state right after a `bump` has
yielded the first element of `cs` (or end-of-input when `cs` is empty). -/
def mkCursor : List Char → Nat → Parser
  | [], pos => ⟨[], none, pos⟩
  | c :: rest, pos => ⟨rest, some c, pos⟩

theorem bump_mkCursor (src : List Char) (ch : Option Char) (pos : Nat) :
    Parser.bump ⟨src, ch, pos⟩ = mkCursor src ((pos + 1) % 65536) := by
  cases src <;> rfl

/-- First-character class accepted by `get_identifier`: `'a'...'z' | 'A'...'Z' | '_'`. -/
def isIdStart (c : Char) : Bool :=
  ('a' ≤ c && c ≤ 'z') || ('A' ≤ c && c ≤ 'Z') || c == '_'

/-- Continuation class accepted by `get_identifier`'s loop:
`'a'...'z' | 'A'...'Z' | '0'...'9' | '_' | '-'`. -/
def isIdCont (c : Char) : Bool :=
  ('a' ≤ c && c ≤ 'z') || ('A' ≤ c && c ≤ 'Z') || ('0' ≤ c && c ≤ '9') ||
    c == '_' || c == '-'

/-- The `loop` of `Parser::get_identifier`: greedily push continuation
characters onto `name`, advancing the cursor after each push. -/
def identLoop (p : Parser) (name : String) : Parser × String :=
  match h : p.ch with
  | none => (p, name)
  | some c =>
    if isIdCont c then identLoop p.bump (name.push c) else (p, name)
termination_by p.meas
decreasing_by
  exact Parser.bump_meas_lt p (by simp [h])

/-- `Parser::get_identifier`. -/
def get_identifier (p : Parser) : Except ParseError (Identifier × Parser) :=
  match p.ch with
  | none => .error ⟨"Unexpected end of input."⟩
  | some c =>
    if isIdStart c then
      let r := identLoop p.bump ("".push c)
      .ok (⟨r.2⟩, r.1)
    else
      .ok (⟨""⟩, p)

/-- The `loop` of `Parser::get_pattern`, with the function's mutable locals
`buffer`, `source`, `quote_delimited` (`qd`) and `first_line` as parameters.
Returns the cursor and the locals' values at the point the loop breaks. -/
def patternLoop (p : Parser) (buffer source : String) (qd firstLine : Bool) :
    Except ParseError (Parser × String × String × Bool) :=
  match h : p.ch with
  | none => .ok (p, buffer, source, qd)
  | some c =>
    if c = '\n' then
      if qd then
        .error ⟨"Unclosed string"⟩
      else
        let p1 := p.bump.get_line_ws
        if p1.ch ≠ some '|' then
          .ok (p1, buffer, source, qd)
        else if firstLine ∧ buffer ≠ "" then
          .error ⟨"Multiline string should have the ID line empty"⟩
        else
          let p2 := p1.bump
          let p3 := if p2.ch = some ' ' then p2.bump else p2
          let buffer1 := if buffer ≠ "" then buffer.push '\n' else buffer
          patternLoop p3 buffer1 source qd false
    else if c = '"' then
      .ok (p.bump, buffer, source, false)
    else
      patternLoop p.bump (buffer.push c) (source.push c) qd firstLine
termination_by p.meas
decreasing_by
  · have h1 : p.bump.meas < p.meas := Parser.bump_meas_lt p (by simp [h])
    have h2 := Parser.get_line_ws_meas_le p.bump
    have h3 := Parser.bump_meas_le p.bump.get_line_ws
    have h4 := Parser.bump_meas_le p.bump.get_line_ws.bump
    split <;> omega
  · exact Parser.bump_meas_lt p (by simp [h])

/-- `Parser::get_pattern`. -/
def get_pattern (p : Parser) : Except ParseError (Value × Parser) :=
  let qd : Bool := if p.ch = some '"' then true else false
  match patternLoop p "" "" qd true with
  | .error e => .error e
  | .ok (p1, buffer, source, qd1) =>
    if qd1 then
      .error ⟨"Unclosed string"⟩
    else
      let content : List PatternElement :=
        if buffer ≠ "" then [.TextElement source] else []
      .ok (.Pattern source (content ++ [.TextElement source]), p1)

/-- `Parser::get_entity`. -/
def get_entity (p : Parser) (comment : Option Comment) :
    Except ParseError (Entry × Parser) :=
  match get_identifier p with
  | .error e => .error e
  | .ok (id, p1) =>
    let p2 := p1.get_line_ws
    if p2.ch ≠ some '=' then
      .error ⟨"Expected '='"⟩
    else
      let p3 := p2.bump.get_line_ws
      match get_pattern p3 with
      | .ok (value, p4) => .ok (.Entity id comment value, p4)
      | .error e => .error e

/-- `Parser::get_entry`: delegates to `get_entity`. -/
def get_entry (p : Parser) (comment : Option Comment) :
    Except ParseError (Entry × Parser) :=
  get_entity p comment

/-! ## Step equations

Unfolding lemmas for the recursively defined scanners, with the branch
conditions as explicit hypotheses.  The hypotheses are stated so that on
concrete cursors `simp` can discharge them, which lets `simp` evaluate the
scanners on concrete inputs. -/

theorem get_ws_bump (p : Parser)
    (h : p.ch = some ' ' ∨ p.ch = some '\n' ∨ p.ch = some '\t' ∨ p.ch = some '\r') :
    p.get_ws = p.bump.get_ws := by
  rw [Parser.get_ws]
  simp only [if_pos h]

theorem get_ws_stop (p : Parser)
    (h : ¬(p.ch = some ' ' ∨ p.ch = some '\n' ∨ p.ch = some '\t' ∨ p.ch = some '\r')) :
    p.get_ws = p := by
  rw [Parser.get_ws]
  simp only [if_neg h]

theorem get_line_ws_bump (p : Parser) (h : p.ch = some ' ' ∨ p.ch = some '\t') :
    p.get_line_ws = p.bump.get_line_ws := by
  rw [Parser.get_line_ws]
  simp only [if_pos h]

theorem get_line_ws_stop (p : Parser) (h : ¬(p.ch = some ' ' ∨ p.ch = some '\t')) :
    p.get_line_ws = p := by
  rw [Parser.get_line_ws]
  simp only [if_neg h]

theorem identLoop_none (p : Parser) (name : String) (h : p.ch = none) :
    identLoop p name = (p, name) := by
  obtain ⟨src, ch, pos⟩ := p
  dsimp only at h
  subst h
  rw [identLoop]

theorem identLoop_cont (p : Parser) (name : String) (c : Char)
    (h : p.ch = some c) (hc : isIdCont c = true) :
    identLoop p name = identLoop p.bump (name.push c) := by
  obtain ⟨src, ch, pos⟩ := p
  dsimp only at h
  subst h
  rw [identLoop]
  simp [hc]

theorem identLoop_stop (p : Parser) (name : String) (c : Char)
    (h : p.ch = some c) (hc : isIdCont c = false) :
    identLoop p name = (p, name) := by
  obtain ⟨src, ch, pos⟩ := p
  dsimp only at h
  subst h
  rw [identLoop]
  simp [hc]

theorem patternLoop_eoi (p : Parser) (buffer source : String) (qd firstLine : Bool)
    (h : p.ch = none) :
    patternLoop p buffer source qd firstLine = .ok (p, buffer, source, qd) := by
  obtain ⟨src, ch, pos⟩ := p
  dsimp only at h
  subst h
  rw [patternLoop]

theorem patternLoop_nl_quoted (p : Parser) (buffer source : String) (firstLine : Bool)
    (h : p.ch = some '\n') :
    patternLoop p buffer source true firstLine = .error ⟨"Unclosed string"⟩ := by
  obtain ⟨src, ch, pos⟩ := p
  dsimp only at h
  subst h
  rw [patternLoop]
  rfl

theorem patternLoop_nl_stop (p : Parser) (buffer source : String) (firstLine : Bool)
    (h : p.ch = some '\n') (hpipe : ¬p.bump.get_line_ws.ch = some '|') :
    patternLoop p buffer source false firstLine
      = .ok (p.bump.get_line_ws, buffer, source, false) := by
  obtain ⟨src, ch, pos⟩ := p
  dsimp only at h
  subst h
  rw [patternLoop]
  simp [if_neg hpipe]

theorem patternLoop_nl_malformed (p : Parser) (buffer source : String)
    (h : p.ch = some '\n') (hpipe : p.bump.get_line_ws.ch = some '|')
    (hb : buffer ≠ "") :
    patternLoop p buffer source false true
      = .error ⟨"Multiline string should have the ID line empty"⟩ := by
  obtain ⟨src, ch, pos⟩ := p
  dsimp only at h
  subst h
  rw [patternLoop]
  simp [hpipe, hb]

theorem patternLoop_nl_cont (p : Parser) (buffer source : String) (firstLine : Bool)
    (h : p.ch = some '\n') (hpipe : p.bump.get_line_ws.ch = some '|')
    (hok : ¬(firstLine = true ∧ buffer ≠ "")) :
    patternLoop p buffer source false firstLine
      = patternLoop
          (if p.bump.get_line_ws.bump.ch = some ' '
            then p.bump.get_line_ws.bump.bump
            else p.bump.get_line_ws.bump)
          (if buffer ≠ "" then buffer.push '\n' else buffer)
          source false false := by
  obtain ⟨src, ch, pos⟩ := p
  dsimp only at h
  subst h
  rw [patternLoop]
  simp [hpipe, hok]

theorem patternLoop_quote (p : Parser) (buffer source : String) (qd firstLine : Bool)
    (h : p.ch = some '"') :
    patternLoop p buffer source qd firstLine = .ok (p.bump, buffer, source, false) := by
  obtain ⟨src, ch, pos⟩ := p
  dsimp only at h
  subst h
  rw [patternLoop]
  rfl

theorem patternLoop_text (p : Parser) (buffer source : String) (qd firstLine : Bool)
    (c : Char) (h : p.ch = some c) (h1 : c ≠ '\n') (h2 : c ≠ '"') :
    patternLoop p buffer source qd firstLine
      = patternLoop p.bump (buffer.push c) (source.push c) qd firstLine := by
  obtain ⟨src, ch, pos⟩ := p
  dsimp only at h
  subst h
  rw [patternLoop]
  simp [if_neg h1, if_neg h2]

/-! ### Constructor-keyed evaluation equations

Unconditional unfolding equations keyed on the record form of the cursor,
with which `simp` can evaluate the scanners on concrete inputs. -/

theorem get_ws_nil (src : List Char) (pos : Nat) :
    Parser.get_ws ⟨src, none, pos⟩ = ⟨src, none, pos⟩ := by
  rw [Parser.get_ws]
  simp

theorem get_ws_cons (src : List Char) (c : Char) (pos : Nat) :
    Parser.get_ws ⟨src, some c, pos⟩
      = if c = ' ' ∨ c = '\n' ∨ c = '\t' ∨ c = '\r'
          then Parser.get_ws (Parser.bump ⟨src, some c, pos⟩)
          else ⟨src, some c, pos⟩ := by
  rw [Parser.get_ws]
  simp

theorem get_line_ws_nil (src : List Char) (pos : Nat) :
    Parser.get_line_ws ⟨src, none, pos⟩ = ⟨src, none, pos⟩ := by
  rw [Parser.get_line_ws]
  simp

theorem get_line_ws_cons (src : List Char) (c : Char) (pos : Nat) :
    Parser.get_line_ws ⟨src, some c, pos⟩
      = if c = ' ' ∨ c = '\t'
          then Parser.get_line_ws (Parser.bump ⟨src, some c, pos⟩)
          else ⟨src, some c, pos⟩ := by
  rw [Parser.get_line_ws]
  simp

theorem identLoop_nil (src : List Char) (pos : Nat) (name : String) :
    identLoop ⟨src, none, pos⟩ name = (⟨src, none, pos⟩, name) := by
  rw [identLoop]

theorem identLoop_cons (src : List Char) (c : Char) (pos : Nat) (name : String) :
    identLoop ⟨src, some c, pos⟩ name
      = if isIdCont c
          then identLoop (Parser.bump ⟨src, some c, pos⟩) (name.push c)
          else (⟨src, some c, pos⟩, name) := by
  rw [identLoop]

theorem patternLoop_nil (src : List Char) (pos : Nat) (buffer source : String)
    (qd firstLine : Bool) :
    patternLoop ⟨src, none, pos⟩ buffer source qd firstLine
      = .ok (⟨src, none, pos⟩, buffer, source, qd) := by
  rw [patternLoop]

theorem patternLoop_cons (src : List Char) (c : Char) (pos : Nat)
    (buffer source : String) (qd firstLine : Bool) :
    patternLoop ⟨src, some c, pos⟩ buffer source qd firstLine
      = if c = '\n' then
          if qd then
            .error ⟨"Unclosed string"⟩
          else
            let p1 := (Parser.bump ⟨src, some c, pos⟩).get_line_ws
            if p1.ch ≠ some '|' then
              .ok (p1, buffer, source, qd)
            else if firstLine ∧ buffer ≠ "" then
              .error ⟨"Multiline string should have the ID line empty"⟩
            else
              let p2 := p1.bump
              let p3 := if p2.ch = some ' ' then p2.bump else p2
              let buffer1 := if buffer ≠ "" then buffer.push '\n' else buffer
              patternLoop p3 buffer1 source qd false
        else if c = '"' then
          .ok (Parser.bump ⟨src, some c, pos⟩, buffer, source, false)
        else
          patternLoop (Parser.bump ⟨src, some c, pos⟩)
            (buffer.push c) (source.push c) qd firstLine := by
  rw [patternLoop]

/-! ## Measure lemmas for the remaining loops -/

theorem identLoop_meas_le (p : Parser) (name : String) :
    (identLoop p name).1.meas ≤ p.meas := by
  rcases hc : p.ch with - | c
  · rw [identLoop_none p name hc]
  · cases hcont : isIdCont c
    · rw [identLoop_stop p name c hc hcont]
    · rw [identLoop_cont p name c hc hcont]
      exact le_trans (identLoop_meas_le p.bump _) (Parser.bump_meas_le p)
termination_by p.meas
decreasing_by
  exact Parser.bump_meas_lt p (by simp [hc])

theorem get_identifier_meas_le (p : Parser) (id : Identifier) (p1 : Parser)
    (h : get_identifier p = .ok (id, p1)) : p1.meas ≤ p.meas := by
  rw [get_identifier] at h
  rcases hc : p.ch with - | c
  · simp [hc] at h
  · simp only [hc] at h
    by_cases hs : isIdStart c = true
    · rw [if_pos hs] at h
      simp only [Except.ok.injEq, Prod.mk.injEq] at h
      rw [← h.2]
      exact le_trans (identLoop_meas_le p.bump ("".push c)) (Parser.bump_meas_le p)
    · rw [if_neg hs] at h
      simp only [Except.ok.injEq, Prod.mk.injEq] at h
      rw [← h.2]

theorem patternLoop_meas_le (p : Parser) (buffer source : String)
    (qd firstLine : Bool) (p1 : Parser) (b1 s1 : String) (q1 : Bool)
    (h : patternLoop p buffer source qd firstLine = .ok (p1, b1, s1, q1)) :
    p1.meas ≤ p.meas := by
  rcases hc : p.ch with - | c
  · rw [patternLoop_eoi p buffer source qd firstLine hc] at h
    simp only [Except.ok.injEq, Prod.mk.injEq] at h
    rw [← h.1]
  · by_cases h1 : c = '\n'
    · subst h1
      cases hqd : qd
      · subst hqd
        by_cases hpipe : p.bump.get_line_ws.ch = some '|'
        · by_cases hfb : firstLine = true ∧ buffer ≠ ""
          · rw [hfb.1] at h
            rw [patternLoop_nl_malformed p buffer source hc hpipe hfb.2] at h
            simp at h
          · rw [patternLoop_nl_cont p buffer source firstLine hc hpipe hfb] at h
            refine le_trans (patternLoop_meas_le _ _ _ _ _ _ _ _ _ h) ?_
            have h2 : p.bump.meas < p.meas := Parser.bump_meas_lt p (by simp [hc])
            have h3 := Parser.get_line_ws_meas_le p.bump
            have h4 := Parser.bump_meas_le p.bump.get_line_ws
            have h5 := Parser.bump_meas_le p.bump.get_line_ws.bump
            split <;> omega
        · rw [patternLoop_nl_stop p buffer source firstLine hc hpipe] at h
          simp only [Except.ok.injEq, Prod.mk.injEq] at h
          rw [← h.1]
          exact le_trans (Parser.get_line_ws_meas_le p.bump) (Parser.bump_meas_le p)
      · subst hqd
        rw [patternLoop_nl_quoted p buffer source firstLine hc] at h
        simp at h
    · by_cases h2 : c = '"'
      · subst h2
        rw [patternLoop_quote p buffer source qd firstLine hc] at h
        simp only [Except.ok.injEq, Prod.mk.injEq] at h
        rw [← h.1]
        exact Parser.bump_meas_le p
      · rw [patternLoop_text p buffer source qd firstLine c hc h1 h2] at h
        exact le_trans (patternLoop_meas_le _ _ _ _ _ _ _ _ _ h) (Parser.bump_meas_le p)
termination_by p.meas
decreasing_by
  · have h2 : p.bump.meas < p.meas := Parser.bump_meas_lt p (by simp [hc])
    have h3 := Parser.get_line_ws_meas_le p.bump
    have h4 := Parser.bump_meas_le p.bump.get_line_ws
    have h5 := Parser.bump_meas_le p.bump.get_line_ws.bump
    split <;> omega
  · exact Parser.bump_meas_lt p (by simp [hc])

theorem get_pattern_meas_le (p : Parser) (v : Value) (p1 : Parser)
    (h : get_pattern p = .ok (v, p1)) : p1.meas ≤ p.meas := by
  rw [get_pattern] at h
  rcases heq : patternLoop p "" "" (if p.ch = some '"' then true else false) true with
    e | r
  · rw [heq] at h
    simp at h
  · obtain ⟨p2, buffer, source, qd1⟩ := r
    rw [heq] at h
    cases hq : qd1
    · rw [hq] at h heq
      simp only [Bool.false_eq_true, if_false, Except.ok.injEq, Prod.mk.injEq] at h
      rw [← h.2]
      exact patternLoop_meas_le _ _ _ _ _ _ _ _ _ heq
    · rw [hq] at h
      simp at h

theorem get_entity_meas_lt (p : Parser) (comment : Option Comment)
    (e : Entry) (p1 : Parser) (h : get_entity p comment = .ok (e, p1)) :
    p1.meas < p.meas := by
  rw [get_entity] at h
  rcases heq : get_identifier p with e0 | r
  · rw [heq] at h
    simp at h
  · obtain ⟨id, p2⟩ := r
    rw [heq] at h
    dsimp only at h
    by_cases hne : p2.get_line_ws.ch = some '='
    · rw [if_neg (by simpa using hne)] at h
      rcases heq2 : get_pattern p2.get_line_ws.bump.get_line_ws with e1 | r2
      · rw [heq2] at h
        simp at h
      · obtain ⟨v, p4⟩ := r2
        rw [heq2] at h
        simp only [Except.ok.injEq, Prod.mk.injEq] at h
        rw [← h.2]
        have hle1 := get_identifier_meas_le p id p2 heq
        have hle2 := Parser.get_line_ws_meas_le p2
        have hlt : p2.get_line_ws.bump.meas < p2.get_line_ws.meas :=
          Parser.bump_meas_lt _ (by simp [hne])
        have hle3 := Parser.get_line_ws_meas_le p2.get_line_ws.bump
        have hle4 := get_pattern_meas_le _ _ _ heq2
        omega
    · rw [if_pos (by simpa using hne)] at h
      simp at h

/-- The `loop` of `Parser::parse`: parse one entry, skip whitespace, repeat
until the current character is exhausted. -/
def parseLoop (p : Parser) (entries : List Entry) : Except ParseError (List Entry) :=
  if p.ch = none then
    .ok entries
  else
    match h : get_entry p none with
    | .error e => .error e
    | .ok (entry, p1) => parseLoop p1.get_ws (entries ++ [entry])
termination_by p.meas
decreasing_by
  exact lt_of_le_of_lt (Parser.get_ws_meas_le p1)
    (get_entity_meas_lt p none entry p1 (by simpa [get_entry] using h))

theorem parseLoop_eq (p : Parser) (entries : List Entry) :
    parseLoop p entries =
      if p.ch = none then
        .ok entries
      else
        match get_entry p none with
        | .error e => .error e
        | .ok (entry, p1) => parseLoop p1.get_ws (entries ++ [entry]) := by
  rw [parseLoop]
  by_cases h : p.ch = none
  · rw [if_pos h, if_pos h]
  · rw [if_neg h, if_neg h]
    split <;> rename_i heq <;> rw [heq]

theorem parseLoop_nil (src : List Char) (pos : Nat) (entries : List Entry) :
    parseLoop ⟨src, none, pos⟩ entries = .ok entries := by
  rw [parseLoop_eq]
  simp

theorem parseLoop_cons (src : List Char) (c : Char) (pos : Nat) (entries : List Entry) :
    parseLoop ⟨src, some c, pos⟩ entries
      = match get_entry ⟨src, some c, pos⟩ none with
        | .error e => .error e
        | .ok (entry, p1) => parseLoop p1.get_ws (entries ++ [entry]) := by
  rw [parseLoop_eq]
  simp

/-- `Parser::new(s).parse()`: skip whitespace (a no-op on a fresh cursor,
whose current character is still `None`), prime the cursor with one `bump`,
then run the entry loop. -/
def parse (s : String) : Except ParseError (List Entry) :=
  parseLoop (Parser.new s.toList).get_ws.bump []

/-! ## Characterisation of the identifier scanner -/

theorem identLoop_stream (cs : List Char) : ∀ (pos : Nat) (name : String),
    ∃ pos2, identLoop (mkCursor cs pos) name
      = (mkCursor (cs.dropWhile (fun d => isIdCont d)) pos2,
         ⟨name.data ++ cs.takeWhile (fun d => isIdCont d)⟩) := by
  induction cs with
  | nil =>
    intro pos name
    exact ⟨pos, by simp [mkCursor, identLoop_nil]⟩
  | cons c rest ih =>
    intro pos name
    rw [show mkCursor (c :: rest) pos = ⟨rest, some c, pos⟩ from rfl, identLoop_cons]
    cases hc : isIdCont c
    · refine ⟨pos, ?_⟩
      simp [hc, List.dropWhile, List.takeWhile, mkCursor]
    · simp only [hc, if_true]
      rw [bump_mkCursor]
      obtain ⟨pos2, hrun⟩ := ih ((pos + 1) % 65536) (name.push c)
      refine ⟨pos2, ?_⟩
      rw [hrun]
      simp [hc, List.dropWhile, List.takeWhile, String.push]

theorem get_identifier_eoi (p : Parser) (h : p.ch = none) :
    get_identifier p = .error ⟨"Unexpected end of input."⟩ := by
  obtain ⟨src, ch, pos⟩ := p
  dsimp only at h
  subst h
  rw [get_identifier]

theorem get_identifier_nomatch (p : Parser) (c : Char)
    (h : p.ch = some c) (hs : isIdStart c = false) :
    get_identifier p = .ok (⟨""⟩, p) := by
  obtain ⟨src, ch, pos⟩ := p
  dsimp only at h
  subst h
  rw [get_identifier]
  simp [hs]

theorem get_identifier_start (p : Parser) (c : Char)
    (h : p.ch = some c) (hs : isIdStart c = true) :
    ∃ pos2, get_identifier p
      = .ok (⟨⟨c :: p.source.takeWhile (fun d => isIdCont d)⟩⟩,
             mkCursor (p.source.dropWhile (fun d => isIdCont d)) pos2) := by
  obtain ⟨src, ch, pos⟩ := p
  dsimp only at h ⊢
  subst h
  rw [get_identifier]
  simp only [hs, if_true]
  rw [bump_mkCursor]
  obtain ⟨pos2, hrun⟩ := identLoop_stream src ((pos + 1) % 65536) ("".push c)
  refine ⟨pos2, ?_⟩
  rw [hrun]
  simp [String.push]

theorem get_identifier_error (p : Parser) (e : ParseError)
    (h : get_identifier p = .error e) :
    p.ch = none ∧ e = ⟨"Unexpected end of input."⟩ := by
  rcases hc : p.ch with - | c
  · rw [get_identifier_eoi p hc] at h
    simp only [Except.error.injEq] at h
    exact ⟨rfl, h.symm⟩
  · cases hs : isIdStart c
    · rw [get_identifier_nomatch p c hc hs] at h
      simp at h
    · obtain ⟨pos2, hok⟩ := get_identifier_start p c hc hs
      rw [hok] at h
      simp at h

/-! ## The pattern loop with `quote_delimited` false -/

theorem patternLoop_false_inv (p : Parser) (buffer source : String) (firstLine : Bool) :
    (∀ e, patternLoop p buffer source false firstLine = .error e →
      e = ⟨"Multiline string should have the ID line empty"⟩) ∧
    (∀ p1 b1 s1 q1, patternLoop p buffer source false firstLine = .ok (p1, b1, s1, q1) →
      q1 = false) := by
  constructor
  · intro e he
    rcases hc : p.ch with - | c
    · rw [patternLoop_eoi _ _ _ _ _ hc] at he
      simp at he
    · by_cases h1 : c = '\n'
      · subst h1
        by_cases hpipe : p.bump.get_line_ws.ch = some '|'
        · by_cases hfb : firstLine = true ∧ buffer ≠ ""
          · obtain ⟨hf1, hb⟩ := hfb
            subst hf1
            rw [patternLoop_nl_malformed p buffer source hc hpipe hb] at he
            simp only [Except.error.injEq] at he
            exact he.symm
          · rw [patternLoop_nl_cont p buffer source firstLine hc hpipe hfb] at he
            exact (patternLoop_false_inv _ _ _ _).1 e he
        · rw [patternLoop_nl_stop p buffer source firstLine hc hpipe] at he
          simp at he
      · by_cases h2 : c = '"'
        · subst h2
          rw [patternLoop_quote p buffer source false firstLine hc] at he
          simp at he
        · rw [patternLoop_text p buffer source false firstLine c hc h1 h2] at he
          exact (patternLoop_false_inv _ _ _ _).1 e he
  · intro p1 b1 s1 q1 hok
    rcases hc : p.ch with - | c
    · rw [patternLoop_eoi _ _ _ _ _ hc] at hok
      simp only [Except.ok.injEq, Prod.mk.injEq] at hok
      exact hok.2.2.2.symm
    · by_cases h1 : c = '\n'
      · subst h1
        by_cases hpipe : p.bump.get_line_ws.ch = some '|'
        · by_cases hfb : firstLine = true ∧ buffer ≠ ""
          · obtain ⟨hf1, hb⟩ := hfb
            subst hf1
            rw [patternLoop_nl_malformed p buffer source hc hpipe hb] at hok
            simp at hok
          · rw [patternLoop_nl_cont p buffer source firstLine hc hpipe hfb] at hok
            exact (patternLoop_false_inv _ _ _ _).2 p1 b1 s1 q1 hok
        · rw [patternLoop_nl_stop p buffer source firstLine hc hpipe] at hok
          simp only [Except.ok.injEq, Prod.mk.injEq] at hok
          exact hok.2.2.2.symm
      · by_cases h2 : c = '"'
        · subst h2
          rw [patternLoop_quote p buffer source false firstLine hc] at hok
          simp only [Except.ok.injEq, Prod.mk.injEq] at hok
          exact hok.2.2.2.symm
        · rw [patternLoop_text p buffer source false firstLine c hc h1 h2] at hok
          exact (patternLoop_false_inv _ _ _ _).2 p1 b1 s1 q1 hok
termination_by p.meas
decreasing_by
  all_goals first
    | exact Parser.bump_meas_lt p (by simp [hc])
    | · have h2 : p.bump.meas < p.meas := Parser.bump_meas_lt p (by simp [hc])
        have h3 := Parser.get_line_ws_meas_le p.bump
        have h4 := Parser.bump_meas_le p.bump.get_line_ws
        have h5 := Parser.bump_meas_le p.bump.get_line_ws.bump
        split <;> omega

/-! ## The claims -/

/-- C1: the claim that a successful pattern scan returns exactly one
`TextElement` holding the logically-joined text fails on the code: the
post-loop construction pushes `source` (not `buffer`) and pushes it twice
whenever `buffer` ended non-empty.  `a = b` yields two `TextElement`s, and
`multi =\n| abc\n| def\n` yields elements holding `abcdef` — the raw
accumulated source — rather than one element holding the joined text
`abc\ndef`. -/
theorem c1_pattern_elements :
    parse "a = b"
      = .ok [.Entity ⟨"a"⟩ none (.Pattern "b" [.TextElement "b", .TextElement "b"])] ∧
    parse "multi =\n| abc\n| def\n"
      = .ok [.Entity ⟨"multi"⟩ none
          (.Pattern "abcdef" [.TextElement "abcdef", .TextElement "abcdef"])] := by
  constructor <;>
    simp +decide [parse, Parser.new, Parser.bump, parseLoop_nil, parseLoop_cons, get_entry,
    get_entity, get_identifier, get_pattern, identLoop_nil, identLoop_cons,
    patternLoop_nil, patternLoop_cons, get_ws_nil, get_ws_cons, get_line_ws_nil,
    get_line_ws_cons, isIdStart, isIdCont]

/-- C3: the claim that the top-level loop skips whitespace before each
entity fails on the code: `parse` calls `get_ws` before the first `bump`,
when the current character is still `None`, so the call is a no-op (first
conjunct) and leading whitespace is never skipped.  The empty input parses
to the empty entry sequence, but an all-whitespace input fails with
`Expected '='`, and `" a = b"` fails while `"a = b"` parses. -/
theorem c3_whitespace_handling :
    (∀ s : List Char, (Parser.new s).get_ws = Parser.new s) ∧
    parse "" = .ok [] ∧
    parse " " = .error ⟨"Expected '='"⟩ ∧
    parse " a = b" = .error ⟨"Expected '='"⟩ ∧
    parse "a = b"
      = .ok [.Entity ⟨"a"⟩ none (.Pattern "b" [.TextElement "b", .TextElement "b"])] := by
  refine ⟨fun s => get_ws_stop _ (by simp [Parser.new]), ?_, ?_, ?_, ?_⟩ <;>
    simp +decide [parse, Parser.new, Parser.bump, parseLoop_nil, parseLoop_cons, get_entry,
    get_entity, get_identifier, get_pattern, identLoop_nil, identLoop_cons,
    patternLoop_nil, patternLoop_cons, get_ws_nil, get_ws_cons, get_line_ws_nil,
    get_line_ws_cons, isIdStart, isIdCont]

/-- C5: `multi =\n| abc\n` parses to exactly one Entity with identifier
`multi` whose pattern text is `abc`: the single space after `|` is trimmed
and the content stops at end of input.  (The pattern carries the text
`abc` in its `source` field and in each of its elements; the element list
is duplicated as settled under C1/C9.) -/
theorem c5_multiline_roundtrip :
    parse "multi =\n| abc\n"
      = .ok [.Entity ⟨"multi"⟩ none
          (.Pattern "abc" [.TextElement "abc", .TextElement "abc"])] := by
  simp +decide [parse, Parser.new, Parser.bump, parseLoop_nil, parseLoop_cons, get_entry,
    get_entity, get_identifier, get_pattern, identLoop_nil, identLoop_cons,
    patternLoop_nil, patternLoop_cons, get_ws_nil, get_ws_cons, get_line_ws_nil,
    get_line_ws_cons, isIdStart, isIdCont]

/-- C2: the claimed `UnclosedString` behaviour fails on the code: the
opening quote is never consumed before the scan loop, so the loop's quote
arm immediately treats it as the closing quote and `quote_delimited` is
cleared on the very first iteration.  `get_pattern` can therefore never
return `Unclosed string` (first conjunct); a quoted literal without a
newline does not parse successfully as claimed, and an unclosed quoted
literal does not fail with `UnclosedString` — both `a = "b"` and `a = "b`
fail with `Expected '='` raised while re-parsing the leftover text of the
"empty" quoted value. -/
theorem c2_unclosed_unreachable :
    (∀ p : Parser, get_pattern p ≠ .error ⟨"Unclosed string"⟩) ∧
    parse "a = \"b\"" = .error ⟨"Expected '='"⟩ ∧
    parse "a = \"b" = .error ⟨"Expected '='"⟩ := by
  refine ⟨?_, ?_, ?_⟩
  · intro p h
    rw [get_pattern] at h
    by_cases hq : p.ch = some '"'
    · rw [if_pos hq, patternLoop_quote p "" "" true true hq] at h
      simp at h
    · rw [if_neg hq] at h
      rcases he : patternLoop p "" "" false true with e | r
      · rw [he] at h
        have hE := (patternLoop_false_inv p "" "" true).1 e he
        subst hE
        simp at h
      · obtain ⟨p1, b1, s1, q1⟩ := r
        rw [he] at h
        have hq1 := (patternLoop_false_inv p "" "" true).2 p1 b1 s1 q1 he
        subst hq1
        simp at h
  · simp +decide [parse, Parser.new, Parser.bump, parseLoop_nil, parseLoop_cons, get_entry,
      get_entity, get_identifier, get_pattern, identLoop_nil, identLoop_cons,
      patternLoop_nil, patternLoop_cons, get_ws_nil, get_ws_cons, get_line_ws_nil,
      get_line_ws_cons, isIdStart, isIdCont]
  · simp +decide [parse, Parser.new, Parser.bump, parseLoop_nil, parseLoop_cons, get_entry,
      get_entity, get_identifier, get_pattern, identLoop_nil, identLoop_cons,
      patternLoop_nil, patternLoop_cons, get_ws_nil, get_ws_cons, get_line_ws_nil,
      get_line_ws_cons, isIdStart, isIdCont]

/-- C4 counterexample: `=b` parses successfully — the identifier scanner
returns an empty identifier without consuming the `=`, and the entity
parser performs no emptiness check — so a successful parse does yield an
Entity whose identifier is the empty string, contrary to the claim. -/
theorem c4_counterexample :
    parse "=b"
      = .ok [.Entity ⟨""⟩ none (.Pattern "b" [.TextElement "b", .TextElement "b"])] := by
  simp +decide [parse, Parser.new, Parser.bump, parseLoop_nil, parseLoop_cons, get_entry,
      get_entity, get_identifier, get_pattern, identLoop_nil, identLoop_cons,
      patternLoop_nil, patternLoop_cons, get_ws_nil, get_ws_cons, get_line_ws_nil,
      get_line_ws_cons, isIdStart, isIdCont]

/-- C4 (amended): the entity parser does not treat an empty identifier as
a syntax error: whenever the current character is not an identifier-start
character and (after skipping line whitespace) is `=`, entity parsing
proceeds with the empty identifier and succeeds if the pattern scan does;
in particular `=y` parses to one Entity with the empty identifier. -/
theorem c4_empty_identifier_accepted :
    (∀ (p : Parser) (c : Char), p.ch = some c → isIdStart c = false →
      p.get_line_ws.ch = some '=' →
      ∀ v p4, get_pattern p.get_line_ws.bump.get_line_ws = .ok (v, p4) →
        get_entity p none = .ok (.Entity ⟨""⟩ none v, p4)) ∧
    parse "=y"
      = .ok [.Entity ⟨""⟩ none (.Pattern "y" [.TextElement "y", .TextElement "y"])] := by
  constructor
  · intro p c h hs heq v p4 hpat
    rw [get_entity, get_identifier_nomatch p c h hs]
    dsimp only
    rw [if_neg (by simp [heq]), hpat]
  · simp +decide [parse, Parser.new, Parser.bump, parseLoop_nil, parseLoop_cons, get_entry,
      get_entity, get_identifier, get_pattern, identLoop_nil, identLoop_cons,
      patternLoop_nil, patternLoop_cons, get_ws_nil, get_ws_cons, get_line_ws_nil,
      get_line_ws_cons, isIdStart, isIdCont]

/-- C6: in line-delimited mode, reaching the first `|` continuation marker
while the buffer already holds content fails with the
MalformedMultilineStringStart error (`Multiline string should have the ID
line empty`); in particular `a = b\n| c` fails with it. -/
theorem c6_malformed_multiline :
    (∀ (p : Parser) (buffer source : String), p.ch = some '\n' →
      p.bump.get_line_ws.ch = some '|' → buffer ≠ "" →
      patternLoop p buffer source false true
        = .error ⟨"Multiline string should have the ID line empty"⟩) ∧
    parse "a = b\n| c" = .error ⟨"Multiline string should have the ID line empty"⟩ := by
  refine ⟨fun p buffer source h hpipe hb =>
    patternLoop_nl_malformed p buffer source h hpipe hb, ?_⟩
  simp +decide [parse, Parser.new, Parser.bump, parseLoop_nil, parseLoop_cons, get_entry,
      get_entity, get_identifier, get_pattern, identLoop_nil, identLoop_cons,
      patternLoop_nil, patternLoop_cons, get_ws_nil, get_ws_cons, get_line_ws_nil,
      get_line_ws_cons, isIdStart, isIdCont]

/-- C7: the identifier scanner (i) returns an empty `Identifier` without
consuming input and without failing when the current character is not in
`[A-Za-z_]`; (ii) fails with `Unexpected end of input.` when invoked with
no current character; (iii) fails only in that case and only with that
error; (iv) when the first character matches, consumes it and then
greedily consumes every following character in `[A-Za-z0-9_-]`, returning
them as the name with the cursor left on the first non-matching character;
and (v) a concrete run on `a` followed by `b1-x ` scans `ab1-x`. -/
theorem c7_identifier_scanner :
    (∀ (p : Parser) (c : Char), p.ch = some c → isIdStart c = false →
      get_identifier p = .ok (⟨""⟩, p)) ∧
    (∀ p : Parser, p.ch = none →
      get_identifier p = .error ⟨"Unexpected end of input."⟩) ∧
    (∀ (p : Parser) (e : ParseError), get_identifier p = .error e →
      p.ch = none ∧ e = ⟨"Unexpected end of input."⟩) ∧
    (∀ (p : Parser) (c : Char), p.ch = some c → isIdStart c = true →
      ∃ pos2, get_identifier p
        = .ok (⟨⟨c :: p.source.takeWhile (fun d => isIdCont d)⟩⟩,
               mkCursor (p.source.dropWhile (fun d => isIdCont d)) pos2)) ∧
    get_identifier ⟨['b', '1', '-', 'x', ' '], some 'a', 0⟩
      = .ok (⟨"ab1-x"⟩, ⟨[], some ' ', 5⟩) := by
  refine ⟨get_identifier_nomatch, get_identifier_eoi, get_identifier_error,
    get_identifier_start, ?_⟩
  simp +decide [get_identifier, identLoop_cons, identLoop_nil, Parser.bump,
    isIdStart, isIdCont]

/-- C8: `parse` is total: it is a terminating function (defined here by
well-founded recursion on the cursor measure, mirroring the code's loops,
all of which consume input), and on every input it returns either one
complete entry sequence or exactly one `ParseError`. -/
theorem c8_parse_total (s : String) :
    (∃ es, parse s = .ok es) ∨ (∃ e, parse s = .error e) := by
  rcases h : parse s with e | es
  · exact Or.inr ⟨e, rfl⟩
  · exact Or.inl ⟨es, rfl⟩

theorem get_pattern_shape (p q : Parser) (src : String) (els : List PatternElement)
    (h : get_pattern p = .ok (.Pattern src els, q)) :
    ∃ buf s1, patternLoop p "" "" (if p.ch = some '"' then true else false) true
        = .ok (q, buf, s1, false) ∧ s1 = src ∧
      els = (if buf ≠ "" then [.TextElement src] else []) ++ [.TextElement src] := by
  rw [get_pattern] at h
  rcases he : patternLoop p "" "" (if p.ch = some '"' then true else false) true with e | r
  · rw [he] at h
    simp at h
  · obtain ⟨p2, buf2, s2, qd2⟩ := r
    rw [he] at h
    cases qd2
    · simp only [Bool.false_eq_true, if_false, Except.ok.injEq, Prod.mk.injEq,
        Value.Pattern.injEq] at h
      obtain ⟨⟨hsrc, hels⟩, hpq⟩ := h
      refine ⟨buf2, s2, ?_, hsrc, ?_⟩
      · rw [hpq]
      · rw [← hsrc]
        exact hels.symm
    · simp at h

/-- C9: every `Value.Pattern` returned by a successful `get_pattern` has a
non-empty element list of one or two `TextElement`s, every element holds
exactly the pattern's own `source` string, and the count is one exactly
when the logical buffer ended empty and two when it ended non-empty; a
concrete run on `b` produces two elements. -/
theorem c9_pattern_invariant :
    (∀ (p q : Parser) (src : String) (els : List PatternElement),
      get_pattern p = .ok (.Pattern src els, q) →
      els ≠ [] ∧ (∀ e ∈ els, e = .TextElement src) ∧
      (els = [.TextElement src] ∨ els = [.TextElement src, .TextElement src]) ∧
      ∀ p1 buf s1 q1,
        patternLoop p "" "" (if p.ch = some '"' then true else false) true
          = .ok (p1, buf, s1, q1) →
        ((buf = "" → els = [.TextElement src]) ∧
         (buf ≠ "" → els = [.TextElement src, .TextElement src]))) ∧
    get_pattern ⟨[], some 'b', 0⟩
      = .ok (.Pattern "b" [.TextElement "b", .TextElement "b"], ⟨[], none, 1⟩) := by
  constructor
  · intro p q src els h
    obtain ⟨buf, s1, hloop, hs1, hels⟩ := get_pattern_shape p q src els h
    subst hs1
    by_cases hbuf : buf = ""
    · rw [hbuf] at hloop hels
      simp only [ne_eq, not_true_eq_false, if_false, List.nil_append] at hels
      subst hels
      refine ⟨by simp, by simp, Or.inl rfl, ?_⟩
      intro p1 b2 s2 q1 hp
      rw [hloop] at hp
      simp only [Except.ok.injEq, Prod.mk.injEq] at hp
      exact ⟨fun _ => rfl, fun hb2 => absurd hp.2.1.symm hb2⟩
    · simp only [ne_eq, if_pos hbuf, List.cons_append, List.nil_append] at hels
      subst hels
      refine ⟨by simp, by simp, Or.inr rfl, ?_⟩
      intro p1 b2 s2 q1 hp
      rw [hloop] at hp
      simp only [Except.ok.injEq, Prod.mk.injEq] at hp
      exact ⟨fun hb2 => absurd (hp.2.1.trans hb2) hbuf, fun _ => rfl⟩
  · simp +decide [get_pattern, patternLoop_cons, patternLoop_nil, Parser.bump]

/-- C10: the cursor position is a 16-bit counter incremented by one modulo
`2^16` on every `bump`, including bumps past end-of-input, where the
current character stays `none` while the position keeps moving; after
`n` advances from an exhausted cursor at position `pos < 65536` the
position is `(pos + n) % 65536`, so it wraps (e.g. from 65535 to 0). -/
theorem c10_position_counter :
    (∀ p : Parser, p.bump.pos = (p.pos + 1) % 65536) ∧
    (∀ p : Parser, p.source = [] → p.bump = ⟨[], none, (p.pos + 1) % 65536⟩) ∧
    (∀ pos : Nat, pos < 65536 → ∀ n : Nat,
      Parser.bump^[n] ⟨[], none, pos⟩ = ⟨[], none, (pos + n) % 65536⟩) ∧
    Parser.bump ⟨[], none, 65535⟩ = ⟨[], none, 0⟩ := by
  refine ⟨?_, ?_, ?_, by decide⟩
  · intro p
    obtain ⟨src, ch, pos⟩ := p
    cases src <;> rfl
  · intro p h
    obtain ⟨src, ch, pos⟩ := p
    dsimp only at h
    subst h
    rfl
  · intro pos hpos n
    induction n generalizing pos with
    | zero => simp [Nat.mod_eq_of_lt hpos]
    | succ n ih =>
      rw [Function.iterate_succ_apply]
      rw [show Parser.bump ⟨[], none, pos⟩ = (⟨[], none, (pos + 1) % 65536⟩ : Parser)
        from rfl]
      rw [ih ((pos + 1) % 65536) (Nat.mod_lt _ (by norm_num))]
      congr 1
      omega

end L20n
